import Mathlib

/-
Verification of the incremental build orchestrator `build_library` from
`build.py` of py-tree-sitter-languages.

The script's core function is

    def build_library(output_path, repo_paths) -> bool

which decides staleness from filesystem modification times, discovers per-module
compilation units (`<repo>/src/parser.c`, optional `<repo>/src/scanner.cc` or
`<repo>/src/scanner.c`), compiles each unit and links one shared library.

Shallow embedding choices:
  * The filesystem is a map from path strings to `Option Nat`: `some t` means
    the path exists with modification time `t` (`os.path.exists` /
    `os.path.getmtime`), `none` means it does not exist (`getmtime` raises
    `FileNotFoundError`).
  * Exceptions are an explicit `BuildError` in `Except`.
  * The external toolchain (`compiler.compile`, `compiler.link_shared_object`)
    is opaque: whether a compile raises is an oracle `compileOk`, the object
    path a compile returns is modelled by `objectPathOf`, and every toolchain
    invocation is recorded in an event trace, together with the removal of the
    `TemporaryDirectory` on scope exit (success or exception alike).
  * `path.getmtime(__file__)` — the build script's own mtime — is the lookup of
    a `script_path` parameter in the same filesystem.
-/

set_option autoImplicit false

namespace BuildPy

/-- Host platform as reported by `platform.system()`: `Windows` or anything else. -/
inductive Platform where
  | windows
  | other
deriving DecidableEq, Repr

/-- Filesystem metadata: each path either has a modification time or does not exist. -/
structure FS where
  mtime : String → Option Nat

/-- `os.path.exists`. -/
def FS.existsP (fs : FS) (p : String) : Bool :=
  (fs.mtime p).isSome

/-- Overwrite one path's modification time (the effect of writing a file at time `t`). -/
def FS.withMtime (fs : FS) (p : String) (t : Nat) : FS :=
  ⟨fun q => if q = p then some t else fs.mtime q⟩

/-- `os.path.join` on the POSIX branch (no argument of the program is absolute
or empty, so joining is plain separator insertion). -/
def pjoin (a b : String) : String :=
  a ++ "/" ++ b

/-- Characters strictly before the last separator of a character list. -/
def dirnameChars : List Char → List Char
  | [] => []
  | c :: cs => if cs.contains (Char.ofNat 47) then c :: dirnameChars cs else []

/-- `os.path.dirname` on the POSIX branch: everything before the last separator,
`""` when there is none. -/
def dirname (p : String) : String :=
  ⟨dirnameChars p.data⟩

/-- Python's `str.endswith`. -/
def endswith (p suffix : String) : Bool :=
  suffix.data.isSuffixOf p.data

/-- The exceptions `build_library` can raise.  `valueError` is the
`ValueError("Must provide at least one language folder")` of the empty-input
check; `fileNotFound` is the `FileNotFoundError` that `os.path.getmtime` raises
on a missing path; `compileError` is a failure raised by `compiler.compile`. -/
inductive BuildError where
  | valueError (msg : String)
  | fileNotFound (p : String)
  | compileError (src : String)
deriving DecidableEq, Repr

/-- Does a result carry the `ValueError` that realises the spec's
ConfigurationError in this program? -/
def isConfigurationErrorResult : Except BuildError Bool → Bool
  | .error (.valueError _) => true
  | _ => false

/-- Observable effects of one `build_library` call: a compiler invocation (with
its include directories and extra flags), the single link invocation, and the
removal of the pass's temporary object directory on scope exit. -/
inductive Ev where
  | compile (source_path out_dir : String) (include_dirs : List String)
      (extra_preargs : Option (List String))
  | link (object_paths : List String) (output_path : String) (target_lang : String)
  | tmpRemoved
deriving DecidableEq, Repr

/-- Is an event the link invocation? -/
def isLinkEv : Ev → Bool
  | .link _ _ _ => true
  | _ => false

/-- Is an event a compiler invocation? -/
def isCompileEv : Ev → Bool
  | .compile _ _ _ _ => true
  | _ => false

/-- One iteration of the discovery loop of `build_library` (lines 61–68):
append `<repo>/src/parser.c` unconditionally, then the C++ scanner (setting the
`cpp` flag) if present, else the C scanner if present. -/
def discoverStep (fs : FS) (acc : List String × Bool) (repo_path : String) :
    List String × Bool :=
  let src_path := pjoin repo_path "src"
  let acc1 : List String × Bool := (acc.1 ++ [pjoin src_path "parser.c"], acc.2)
  if fs.existsP (pjoin src_path "scanner.cc") then
    (acc1.1 ++ [pjoin src_path "scanner.cc"], true)
  else if fs.existsP (pjoin src_path "scanner.c") then
    (acc1.1 ++ [pjoin src_path "scanner.c"], acc1.2)
  else
    acc1

/-- The whole discovery loop: flattened source paths and the `cpp` flag. -/
def discover (fs : FS) (repo_paths : List String) : List String × Bool :=
  repo_paths.foldl (discoverStep fs) ([], false)

/-- `<repo>/src/parser.c`. -/
def parserPath (repo_path : String) : String :=
  pjoin (pjoin repo_path "src") "parser.c"

/-- `<repo>/src/scanner.cc`. -/
def scannerCCPath (repo_path : String) : String :=
  pjoin (pjoin repo_path "src") "scanner.cc"

/-- `<repo>/src/scanner.c`. -/
def scannerCPath (repo_path : String) : String :=
  pjoin (pjoin repo_path "src") "scanner.c"

/-- The ordered compilation-unit paths one module contributes: the mandatory
parser, then the C++ scanner if present, else the C scanner if present. -/
def moduleUnits (fs : FS) (repo_path : String) : List String :=
  parserPath repo_path ::
    (if fs.existsP (scannerCCPath repo_path) then [scannerCCPath repo_path]
     else if fs.existsP (scannerCPath repo_path) then [scannerCPath repo_path]
     else [])

/-- Whether a module contributes a C++ scanner (and hence forces the C++ link target). -/
def moduleHasCpp (fs : FS) (repo_path : String) : Bool :=
  fs.existsP (scannerCCPath repo_path)

/-- `[path.getmtime(p) for p in ps]`: left-to-right, raising `FileNotFoundError`
at the first missing path. -/
def getmtimes (fs : FS) : List String → Except BuildError (List Nat)
  | [] => .ok []
  | p :: ps =>
    match fs.mtime p with
    | none => .error (.fileNotFound p)
    | some t => (getmtimes fs ps).map (fun ts => t :: ts)

/-- The modification times of a list of paths, defaulting missing ones to 0
(only used under the hypothesis that all the paths exist). -/
def mtimesD (fs : FS) (ps : List String) : List Nat :=
  ps.map (fun p => (fs.mtime p).getD 0)

/-- Python's `max` over a list of naturals; the program only applies it to the
nonempty list `[getmtime(__file__)] + …`, where folding from 0 agrees with it. -/
def maxList (l : List Nat) : Nat :=
  l.foldl max 0

/-- Flag selection of the compile loop (lines 90–97): `None` on Windows,
otherwise `-fPIC` plus `-std=c11` for sources ending in `.c` and `-std=c++11`
for the rest. -/
def compileFlags (platform : Platform) (source_path : String) : Option (List String) :=
  match platform with
  | .windows => none
  | .other =>
    if endswith source_path ".c" then some ["-fPIC", "-std=c11"]
    else some ["-fPIC", "-std=c++11"]

/-- The object path `compiler.compile([source], output_dir=out_dir, …)[0]`
returns, modelled opaquely but injectively in the source path. -/
def objectPathOf (out_dir source_path : String) : String :=
  pjoin out_dir (source_path ++ ".o")

/-- The compiler invocation recorded for one source file: include directories
are exactly the source's own directory, flags as selected by platform and extension. -/
def compileEv (platform : Platform) (out_dir source_path : String) : Ev :=
  .compile source_path out_dir [dirname source_path] (compileFlags platform source_path)

/-- The compile loop (lines 88–105): invoke the compiler on each source in
order, collecting object paths; a raising invocation aborts the loop with the
remaining sources untouched. Returns the result and the invocation trace. -/
def compileAll (platform : Platform) (compileOk : String → Bool) (out_dir : String) :
    List String → Except BuildError (List String) × List Ev
  | [] => (.ok [], [])
  | s :: rest =>
    if compileOk s then
      let r := compileAll platform compileOk out_dir rest
      (r.1.map (fun objs => objectPathOf out_dir s :: objs), compileEv platform out_dir s :: r.2)
    else
      (.error (.compileError s), [compileEv platform out_dir s])

/-- The `with TemporaryDirectory(...)` block of `build_library` (lines 87–111):
compile every discovered source, then link once with target language `c++` iff
the `cpp` flag was set.  The temporary directory is removed on both exits of
the block — after the link as well as when a compile raises. -/
def buildPass (platform : Platform) (compileOk : String → Bool)
    (out_dir output_path : String) (sp : List String × Bool) :
    Except BuildError Bool × List Ev :=
  let r := compileAll platform compileOk out_dir sp.1
  match r.1 with
  | .error e => (.error e, r.2 ++ [Ev.tmpRemoved])
  | .ok object_paths =>
    (.ok true,
      r.2 ++ [Ev.link object_paths output_path (if sp.2 then "c++" else "c"),
        Ev.tmpRemoved])

/-- The embedding of `build_library(output_path, repo_paths)` (lines 45–111).
Extra parameters make the ambient state explicit: the filesystem, the host
platform, the compile oracle, `__file__` and the `TemporaryDirectory` name.
Returns the Python result (`True`/`False` or the raised exception) together
with the trace of toolchain invocations and the temporary-directory removal. -/
def build_library (fs : FS) (platform : Platform) (compileOk : String → Bool)
    (script_path out_dir : String) (output_path : String) (repo_paths : List String) :
    Except BuildError Bool × List Ev :=
  let output_mtime := if fs.existsP output_path then (fs.mtime output_path).getD 0 else 0
  if repo_paths.isEmpty then
    (.error (.valueError "Must provide at least one language folder"), [])
  else
    let sp := discover fs repo_paths
    match getmtimes fs (script_path :: sp.1) with
    | .error e => (.error e, [])
    | .ok source_mtimes =>
      if maxList source_mtimes ≤ output_mtime then
        (.ok false, [])
      else
        buildPass platform compileOk out_dir output_path sp

/-- One `build_library` call together with its effect on the filesystem: a pass
that compiles and links (returns `True`) writes the output artifact, whose
modification time becomes the wall-clock time `now` of the link; every other
outcome leaves the filesystem unchanged. -/
def runBuild (fs : FS) (platform : Platform) (compileOk : String → Bool)
    (script_path out_dir : String) (output_path : String) (repo_paths : List String)
    (now : Nat) : (Except BuildError Bool × List Ev) × FS :=
  let r := build_library fs platform compileOk script_path out_dir output_path repo_paths
  match r.1 with
  | .ok true => (r, fs.withMtime output_path now)
  | _ => (r, fs)

/-- Build a concrete filesystem from an association list of paths and mtimes. -/
def fsOf (entries : List (String × Nat)) : FS :=
  ⟨fun p => (entries.find? (fun e => e.1 == p)).map Prod.snd⟩

/-- A compile oracle under which every compiler invocation succeeds. -/
def okAll : String → Bool := fun _ => true

/-- A compile oracle that raises exactly on the given source path. -/
def failAt (bad : String) : String → Bool := fun s => !(s == bad)

/-- One module `A` with only the mandatory parser; no output artifact yet. -/
def fsA : FS := fsOf [("build.py", 5), ("A/src/parser.c", 3)]

/-- Same inputs as `fsA` but with an output artifact exactly as new as the
newest input (both 5). -/
def fsFresh : FS := fsOf [("build.py", 5), ("A/src/parser.c", 3), ("out.so", 5)]

/-- One module `B` owning both a C++ scanner and a C scanner. -/
def fsB : FS :=
  fsOf [("build.py", 1), ("B/src/parser.c", 2), ("B/src/scanner.cc", 3),
    ("B/src/scanner.c", 4)]

/-- Three modules with only parsers, for a failing middle compilation. -/
def fsC : FS :=
  fsOf [("build.py", 1), ("A/src/parser.c", 2), ("B/src/parser.c", 3),
    ("C/src/parser.c", 4)]

/-- Build script and parser both at modification time 0, no output artifact. -/
def fsZero : FS := fsOf [("build.py", 0), ("A/src/parser.c", 0)]

/-- Only the build script exists: module `A` is missing its mandatory parser. -/
def fsMissing : FS := fsOf [("build.py", 1)]

end BuildPy

deriving instance DecidableEq for Except

namespace BuildPy

theorem discoverStep_eq (fs : FS) (acc : List String × Bool) (r : String) :
    discoverStep fs acc r = (acc.1 ++ moduleUnits fs r, acc.2 || moduleHasCpp fs r) := by
  unfold discoverStep moduleUnits moduleHasCpp parserPath scannerCCPath scannerCPath
  split
  · simp_all
  · split <;> simp_all

theorem foldl_discoverStep (fs : FS) (rs : List String) :
    ∀ acc : List String × Bool,
      rs.foldl (discoverStep fs) acc
        = (acc.1 ++ (rs.map (moduleUnits fs)).flatten, acc.2 || rs.any (moduleHasCpp fs)) := by
  induction rs with
  | nil => intro acc; simp
  | cons r rs ih =>
    intro acc
    simp [discoverStep_eq, ih, List.append_assoc, Bool.or_assoc]

theorem discover_spec (fs : FS) (rs : List String) :
    discover fs rs = ((rs.map (moduleUnits fs)).flatten, rs.any (moduleHasCpp fs)) := by
  simpa [discover] using foldl_discoverStep fs rs ([], false)

theorem getmtimes_of_all_isSome (fs : FS) (ps : List String)
    (h : ∀ p ∈ ps, (fs.mtime p).isSome) :
    getmtimes fs ps = .ok (mtimesD fs ps) := by
  induction ps with
  | nil => rfl
  | cons p ps ih =>
    have hp : (fs.mtime p).isSome := h p (List.mem_cons_self _ _)
    obtain ⟨t, ht⟩ := Option.isSome_iff_exists.mp hp
    have := ih (fun q hq => h q (List.mem_cons_of_mem _ hq))
    simp [getmtimes, ht, this, mtimesD, Except.map]

theorem getmtimes_ok_inv (fs : FS) (ps : List String) (ts : List Nat)
    (h : getmtimes fs ps = .ok ts) :
    ts = mtimesD fs ps ∧ ∀ p ∈ ps, (fs.mtime p).isSome := by
  induction ps generalizing ts with
  | nil =>
    simp [getmtimes] at h
    simp [mtimesD, ← h]
  | cons p ps ih =>
    unfold getmtimes at h
    cases hm : fs.mtime p with
    | none => simp [hm] at h
    | some t =>
      simp only [hm] at h
      cases hrest : getmtimes fs ps with
      | error e => simp [hrest, Except.map] at h
      | ok ts2 =>
        simp [hrest, Except.map] at h
        obtain ⟨h1, h2⟩ := ih ts2 hrest
        subst h1
        constructor
        · simp [← h, mtimesD, hm]
        · intro q hq
          rcases List.mem_cons.mp hq with rfl | hq2
          · simp [hm]
          · exact h2 q hq2

theorem getmtimes_error_of_missing (fs : FS) (ps : List String) (p : String)
    (hp : p ∈ ps) (hm : fs.mtime p = none) :
    ∃ q ∈ ps, fs.mtime q = none ∧ getmtimes fs ps = .error (.fileNotFound q) := by
  induction ps with
  | nil => cases hp
  | cons a ps ih =>
    cases ha : fs.mtime a with
    | none =>
      exact ⟨a, List.mem_cons_self _ _, ha, by simp [getmtimes, ha]⟩
    | some t =>
      rcases List.mem_cons.mp hp with rfl | hp2
      · rw [ha] at hm; cases hm
      · obtain ⟨q, hq, hqn, hge⟩ := ih hp2
        exact ⟨q, List.mem_cons_of_mem _ hq, hqn, by simp [getmtimes, ha, hge, Except.map]⟩

theorem getmtimes_congr (fs1 fs2 : FS) (ps : List String)
    (h : ∀ p ∈ ps, fs1.mtime p = fs2.mtime p) :
    getmtimes fs1 ps = getmtimes fs2 ps := by
  induction ps with
  | nil => rfl
  | cons p ps ih =>
    have hp := h p (List.mem_cons_self _ _)
    have := ih (fun q hq => h q (List.mem_cons_of_mem _ hq))
    simp [getmtimes, hp, this]

theorem foldl_max_le_iff (l : List Nat) :
    ∀ a n : Nat, l.foldl max a ≤ n ↔ a ≤ n ∧ ∀ x ∈ l, x ≤ n := by
  induction l with
  | nil => simp
  | cons x xs ih =>
    intro a n
    simp [ih, max_le_iff, and_assoc]

theorem maxList_le_iff (l : List Nat) (n : Nat) :
    maxList l ≤ n ↔ ∀ x ∈ l, x ≤ n := by
  simp [maxList, foldl_max_le_iff]

theorem compileAll_all_ok (platform : Platform) (compileOk : String → Bool) (d : String)
    (l : List String) (h : ∀ s ∈ l, compileOk s = true) :
    compileAll platform compileOk d l
      = (.ok (l.map (objectPathOf d)), l.map (compileEv platform d)) := by
  induction l with
  | nil => rfl
  | cons s rest ih =>
    have hs := h s (List.mem_cons_self _ _)
    have hr := ih (fun t ht => h t (List.mem_cons_of_mem _ ht))
    simp [compileAll, hs, hr, Except.map]

theorem compileAll_fail (platform : Platform) (compileOk : String → Bool) (d : String)
    (l : List String) (s : String)
    (h : l.find? (fun t => !compileOk t) = some s) :
    compileAll platform compileOk d l
      = (.error (.compileError s),
         (l.takeWhile (fun t => compileOk t) ++ [s]).map (compileEv platform d)) := by
  induction l with
  | nil => simp at h
  | cons a rest ih =>
    by_cases ha : compileOk a = true
    · have hna : (fun t => !compileOk t) a = false := by simp [ha]
      rw [List.find?_cons_of_neg _ (by simp [ha])] at h
      have hr := ih h
      simp [compileAll, ha, hr, Except.map, List.takeWhile_cons, hna]
    · have hba : compileOk a = false := by simpa using ha
      rw [List.find?_cons_of_pos _ (by simp [hba])] at h
      cases h
      simp [compileAll, hba, List.takeWhile_cons]

theorem compileAll_ok_inv (platform : Platform) (compileOk : String → Bool) (d : String)
    (l : List String) (objs : List String)
    (h : (compileAll platform compileOk d l).1 = .ok objs) :
    objs = l.map (objectPathOf d) := by
  induction l generalizing objs with
  | nil => simp [compileAll] at h; simp [h]
  | cons s rest ih =>
    by_cases hs : compileOk s = true
    · simp only [compileAll, hs, if_true] at h
      cases hr : (compileAll platform compileOk d rest).1 with
      | error e => rw [hr] at h; simp [Except.map] at h
      | ok objs2 =>
        rw [hr] at h
        simp [Except.map] at h
        simp [← h, ih objs2 hr]
    · simp [compileAll, hs] at h

theorem compileAll_events (platform : Platform) (compileOk : String → Bool) (d : String)
    (l : List String) :
    ∀ e ∈ (compileAll platform compileOk d l).2, ∃ s ∈ l, e = compileEv platform d s := by
  induction l with
  | nil => simp [compileAll]
  | cons a rest ih =>
    intro e he
    by_cases ha : compileOk a = true
    · simp only [compileAll, ha, if_true] at he
      rcases List.mem_cons.mp he with rfl | h2
      · exact ⟨a, List.mem_cons_self _ _, rfl⟩
      · obtain ⟨s, hs, rfl⟩ := ih e h2
        exact ⟨s, List.mem_cons_of_mem _ hs, rfl⟩
    · simp only [compileAll, ha, if_false] at he
      simp at he
      exact ⟨a, List.mem_cons_self _ _, he⟩

theorem buildPass_ok (platform : Platform) (compileOk : String → Bool)
    (out_dir output_path : String) (sp : List String × Bool)
    (h : ∀ s ∈ sp.1, compileOk s = true) :
    buildPass platform compileOk out_dir output_path sp
      = (.ok true, sp.1.map (compileEv platform out_dir)
          ++ [Ev.link (sp.1.map (objectPathOf out_dir)) output_path
                (if sp.2 then "c++" else "c"),
              Ev.tmpRemoved]) := by
  simp [buildPass, compileAll_all_ok _ _ _ _ h]

theorem buildPass_fail (platform : Platform) (compileOk : String → Bool)
    (out_dir output_path : String) (sp : List String × Bool) (s : String)
    (h : sp.1.find? (fun t => !compileOk t) = some s) :
    buildPass platform compileOk out_dir output_path sp
      = (.error (.compileError s),
         (sp.1.takeWhile (fun t => compileOk t) ++ [s]).map (compileEv platform out_dir)
           ++ [Ev.tmpRemoved]) := by
  simp [buildPass, compileAll_fail _ _ _ _ _ h]

theorem build_library_fresh (fs : FS) (platform : Platform) (compileOk : String → Bool)
    (script_path out_dir output_path : String) (repo_paths : List String)
    (hne : repo_paths ≠ [])
    (hex : ∀ p ∈ script_path :: (discover fs repo_paths).1, (fs.mtime p).isSome)
    (hfresh : maxList (mtimesD fs (script_path :: (discover fs repo_paths).1))
        ≤ (if fs.existsP output_path then (fs.mtime output_path).getD 0 else 0)) :
    build_library fs platform compileOk script_path out_dir output_path repo_paths
      = (.ok false, []) := by
  have hne' : repo_paths.isEmpty = false := by
    cases repo_paths with
    | nil => cases hne rfl
    | cons a l => rfl
  have hm : getmtimes fs (script_path :: (discover fs repo_paths).1)
      = .ok (mtimesD fs (script_path :: (discover fs repo_paths).1)) :=
    getmtimes_of_all_isSome fs _ hex
  simp only [build_library, hne', Bool.false_eq_true, if_false, hm]
  rw [if_pos hfresh]

theorem build_library_stale (fs : FS) (platform : Platform) (compileOk : String → Bool)
    (script_path out_dir output_path : String) (repo_paths : List String)
    (hne : repo_paths ≠ [])
    (hex : ∀ p ∈ script_path :: (discover fs repo_paths).1, (fs.mtime p).isSome)
    (hstale : ¬ maxList (mtimesD fs (script_path :: (discover fs repo_paths).1))
        ≤ (if fs.existsP output_path then (fs.mtime output_path).getD 0 else 0)) :
    build_library fs platform compileOk script_path out_dir output_path repo_paths
      = buildPass platform compileOk out_dir output_path (discover fs repo_paths) := by
  have hne' : repo_paths.isEmpty = false := by
    cases repo_paths with
    | nil => cases hne rfl
    | cons a l => rfl
  have hm : getmtimes fs (script_path :: (discover fs repo_paths).1)
      = .ok (mtimesD fs (script_path :: (discover fs repo_paths).1)) :=
    getmtimes_of_all_isSome fs _ hex
  simp only [build_library, hne', Bool.false_eq_true, if_false, hm]
  rw [if_neg hstale]

theorem build_library_mtime_error (fs : FS) (platform : Platform) (compileOk : String → Bool)
    (script_path out_dir output_path : String) (repo_paths : List String)
    (hne : repo_paths ≠ []) (e : BuildError)
    (h : getmtimes fs (script_path :: (discover fs repo_paths).1) = .error e) :
    build_library fs platform compileOk script_path out_dir output_path repo_paths
      = (.error e, []) := by
  have hne' : repo_paths.isEmpty = false := by
    cases repo_paths with
    | nil => cases hne rfl
    | cons a l => rfl
  simp only [build_library, hne', Bool.false_eq_true, if_false, h]

end BuildPy
namespace BuildPy

theorem build_library_empty (fs : FS) (platform : Platform) (compileOk : String → Bool)
    (script_path out_dir output_path : String) :
    build_library fs platform compileOk script_path out_dir output_path []
      = (.error (.valueError "Must provide at least one language folder"), []) := rfl

theorem buildPass_fst_ne_ok_false (platform : Platform) (compileOk : String → Bool)
    (out_dir output_path : String) (sp : List String × Bool) :
    (buildPass platform compileOk out_dir output_path sp).1 ≠ .ok false := by
  simp only [buildPass]
  cases hr : (compileAll platform compileOk out_dir sp.1).1 with
  | error e => simp
  | ok objs => simp

theorem compileEv_head_mem (platform : Platform) (compileOk : String → Bool)
    (d s : String) (rest : List String) :
    compileEv platform d s ∈ (compileAll platform compileOk d (s :: rest)).2 := by
  by_cases hs : compileOk s = true <;> simp [compileAll, hs]

theorem buildPass_compile_mem (platform : Platform) (compileOk : String → Bool)
    (out_dir output_path : String) (sp : List String × Bool) (s : String)
    (rest : List String) (hsp : sp.1 = s :: rest) :
    compileEv platform out_dir s ∈ (buildPass platform compileOk out_dir output_path sp).2 := by
  have hm : compileEv platform out_dir s ∈ (compileAll platform compileOk out_dir sp.1).2 := by
    rw [hsp]; exact compileEv_head_mem platform compileOk out_dir s rest
  simp only [buildPass]
  cases hr : (compileAll platform compileOk out_dir sp.1).1 with
  | error e => simpa using Or.inl hm
  | ok objs => simpa using Or.inl hm

theorem discover_fst_cons (fs : FS) (r : String) (rest : List String) :
    (discover fs (r :: rest)).1
      = moduleUnits fs r ++ ((rest.map (moduleUnits fs)).flatten) := by
  simp [discover_spec]

end BuildPy
namespace BuildPy

/-- Claim C5: with an empty module list, `build_library` raises the
`ValueError` configuration error whatever the filesystem (in particular
whatever the staleness comparison would say and whether or not the output
artifact exists), with an empty effect trace: no compiler is obtained and
nothing is compiled or linked. -/
theorem C5_empty_module_list (fs : FS) (platform : Platform) (compileOk : String → Bool)
    (script_path out_dir output_path : String) :
    build_library fs platform compileOk script_path out_dir output_path []
      = (.error (.valueError "Must provide at least one language folder"), []) := rfl

/-- Claim C2: discovery produces, for each module root in input order, exactly
these units: the mandatory `<root>/src/parser.c` first; then
`<root>/src/scanner.cc` if it exists (which also sets the build's C++-target
flag); else `<root>/src/scanner.c` if it exists; else nothing further. -/
theorem C2_discovery_units (fs : FS) (repo_paths : List String) :
    (discover fs repo_paths).1
        = (repo_paths.map (fun r =>
            parserPath r ::
              (if fs.existsP (scannerCCPath r) then [scannerCCPath r]
               else if fs.existsP (scannerCPath r) then [scannerCPath r]
               else []))).flatten
      ∧ (discover fs repo_paths).2
          = repo_paths.any (fun r => fs.existsP (scannerCCPath r)) := by
  have h := discover_spec fs repo_paths
  exact ⟨by rw [h]; rfl, by rw [h]; rfl⟩

/-- Claim C1: with a non-empty module list whose input files (the build script
and every discovered source) all exist, `build_library` is a no-op returning
`False` with an empty effect trace exactly when the newest input modification
time is ≤ the output artifact's modification time (so equality counts as
fresh), and when the newest input time strictly exceeds the output time the
pass really recompiles: a compiler invocation appears in the trace. -/
theorem C1_staleness_decision (fs : FS) (platform : Platform) (compileOk : String → Bool)
    (script_path out_dir output_path : String) (repo_paths : List String)
    (hne : repo_paths ≠ [])
    (hex : ∀ p ∈ script_path :: (discover fs repo_paths).1, (fs.mtime p).isSome) :
    (build_library fs platform compileOk script_path out_dir output_path repo_paths
        = (.ok false, [])
      ↔ maxList (mtimesD fs (script_path :: (discover fs repo_paths).1))
          ≤ (if fs.existsP output_path then (fs.mtime output_path).getD 0 else 0))
    ∧ ((if fs.existsP output_path then (fs.mtime output_path).getD 0 else 0)
          < maxList (mtimesD fs (script_path :: (discover fs repo_paths).1))
        → ∃ s, compileEv platform out_dir s
            ∈ (build_library fs platform compileOk script_path out_dir output_path
                repo_paths).2) := by
  constructor
  · constructor
    · intro hb
      by_contra hstale
      rw [build_library_stale fs platform compileOk script_path out_dir output_path
        repo_paths hne hex hstale] at hb
      exact buildPass_fst_ne_ok_false platform compileOk out_dir output_path
        (discover fs repo_paths) (by rw [hb])
    · intro hfresh
      exact build_library_fresh fs platform compileOk script_path out_dir output_path
        repo_paths hne hex hfresh
  · intro hstale
    rw [build_library_stale fs platform compileOk script_path out_dir output_path
      repo_paths hne hex (not_le.mpr hstale)]
    obtain ⟨r, rest, hrs⟩ : ∃ r rest, repo_paths = r :: rest := by
      cases repo_paths with
      | nil => cases hne rfl
      | cons a l => exact ⟨a, l, rfl⟩
    have hsrc : (discover fs repo_paths).1
        = parserPath r :: ((moduleUnits fs r).tail
            ++ (rest.map (moduleUnits fs)).flatten) := by
      rw [hrs, discover_fst_cons]
      simp [moduleUnits]
    exact ⟨parserPath r, buildPass_compile_mem platform compileOk out_dir output_path
      (discover fs repo_paths) _ _ hsrc⟩

theorem C1_staleness_decision_witness :
    build_library fsFresh .other okAll "build.py" "tmp" "out.so" ["A"] = (.ok false, []) :=
  (C1_staleness_decision fsFresh .other okAll "build.py" "tmp" "out.so" ["A"]
    (by decide) (by decide)).1.mpr (by decide)

/-- Claim C10: when the output artifact does not exist its modification time is
the epoch sentinel 0, so (with a non-empty module list whose inputs all exist)
`build_library` returns `False` without building exactly when every input — the
build script and every source — has modification time exactly 0; a rebuild
happens iff some input's modification time is strictly greater than 0. -/
theorem C10_missing_output_sentinel (fs : FS) (platform : Platform)
    (compileOk : String → Bool) (script_path out_dir output_path : String)
    (repo_paths : List String)
    (hout : fs.mtime output_path = none)
    (hne : repo_paths ≠ [])
    (hex : ∀ p ∈ script_path :: (discover fs repo_paths).1, (fs.mtime p).isSome) :
    build_library fs platform compileOk script_path out_dir output_path repo_paths
        = (.ok false, [])
      ↔ ∀ p ∈ script_path :: (discover fs repo_paths).1, (fs.mtime p).getD 0 = 0 := by
  have hoet : (if fs.existsP output_path then (fs.mtime output_path).getD 0 else 0) = 0 := by
    simp [FS.existsP, hout]
  constructor
  · intro hb
    by_contra hpos
    push_neg at hpos
    have hstale : ¬ maxList (mtimesD fs (script_path :: (discover fs repo_paths).1))
        ≤ (if fs.existsP output_path then (fs.mtime output_path).getD 0 else 0) := by
      rw [hoet]
      intro hle
      rw [maxList_le_iff] at hle
      obtain ⟨p, hp, hp0⟩ := hpos
      have : (fs.mtime p).getD 0 ≤ 0 := hle _ (List.mem_map.mpr ⟨p, hp, rfl⟩)
      exact hp0 (Nat.le_zero.mp this)
    rw [build_library_stale fs platform compileOk script_path out_dir output_path
      repo_paths hne hex hstale] at hb
    exact buildPass_fst_ne_ok_false platform compileOk out_dir output_path
      (discover fs repo_paths) (by rw [hb])
  · intro hzero
    apply build_library_fresh fs platform compileOk script_path out_dir output_path
      repo_paths hne hex
    rw [hoet, maxList_le_iff]
    intro x hx
    obtain ⟨p, hp, rfl⟩ := List.mem_map.mp hx
    exact Nat.le_of_eq (hzero p hp)

theorem C10_missing_output_sentinel_witness :
    build_library fsZero .other okAll "build.py" "tmp" "out.so" ["A"] = (.ok false, []) :=
  (C10_missing_output_sentinel fsZero .other okAll "build.py" "tmp" "out.so" ["A"]
    (by decide) (by decide) (by decide)).mpr (by decide)

end BuildPy
namespace BuildPy

/-- Claim C3: in every pass that reaches linking (non-empty module list, all
inputs existing, stale, every unit compiling), the linker runs exactly once —
the trace's link events are exactly one — and that invocation covers the
complete object list of the pass and uses target language `c++` iff some module
contributed a C++ scanner, else `c`. -/
theorem C3_link_invocation (fs : FS) (platform : Platform) (compileOk : String → Bool)
    (script_path out_dir output_path : String) (repo_paths : List String)
    (hne : repo_paths ≠ [])
    (hex : ∀ p ∈ script_path :: (discover fs repo_paths).1, (fs.mtime p).isSome)
    (hstale : ¬ maxList (mtimesD fs (script_path :: (discover fs repo_paths).1))
        ≤ (if fs.existsP output_path then (fs.mtime output_path).getD 0 else 0))
    (hok : ∀ s ∈ (discover fs repo_paths).1, compileOk s = true) :
    (build_library fs platform compileOk script_path out_dir output_path repo_paths).1
        = .ok true
      ∧ ((build_library fs platform compileOk script_path out_dir output_path
            repo_paths).2.filter isLinkEv)
          = [Ev.link ((discover fs repo_paths).1.map (objectPathOf out_dir)) output_path
              (if (discover fs repo_paths).2 then "c++" else "c")] := by
  rw [build_library_stale fs platform compileOk script_path out_dir output_path
    repo_paths hne hex hstale,
    buildPass_ok platform compileOk out_dir output_path (discover fs repo_paths) hok]
  refine ⟨rfl, ?_⟩
  rw [List.filter_append, List.filter_map]
  simp [Function.comp, compileEv, isLinkEv]

theorem C3_link_invocation_witness :
    ((build_library fsB .other okAll "build.py" "tmp" "out.so" ["B"]).2.filter isLinkEv)
      = [Ev.link ["tmp/B/src/parser.c.o", "tmp/B/src/scanner.cc.o"] "out.so" "c++"] := by
  have h := C3_link_invocation fsB .other okAll "build.py" "tmp" "out.so" ["B"]
    (by decide) (by decide) (by decide) (by decide)
  exact h.2.trans (by decide)

theorem buildPass_events (platform : Platform) (compileOk : String → Bool)
    (out_dir output_path : String) (sp : List String × Bool) :
    ∀ e ∈ (buildPass platform compileOk out_dir output_path sp).2,
      (∃ s ∈ sp.1, e = compileEv platform out_dir s)
      ∨ (∃ objs tl, e = Ev.link objs output_path tl)
      ∨ e = Ev.tmpRemoved := by
  intro e he
  simp only [buildPass] at he
  cases hr : (compileAll platform compileOk out_dir sp.1).1 with
  | error e2 =>
    rw [hr] at he
    simp only [List.mem_append, List.mem_singleton] at he
    rcases he with he | he
    · exact .inl (compileAll_events _ _ _ _ e he)
    · exact .inr (.inr he)
  | ok objs =>
    rw [hr] at he
    simp only [List.mem_append, List.mem_cons, List.mem_singleton,
      List.not_mem_nil, or_false] at he
    rcases he with he | he | he
    · exact .inl (compileAll_events _ _ _ _ e he)
    · exact .inr (.inl ⟨objs, _, he⟩)
    · exact .inr (.inr he)

theorem build_library_compile_event (fs : FS) (platform : Platform)
    (compileOk : String → Bool) (script_path out_dir output_path : String)
    (repo_paths : List String) (s d : String) (incl : List String)
    (fl : Option (List String))
    (h : Ev.compile s d incl fl
      ∈ (build_library fs platform compileOk script_path out_dir output_path
          repo_paths).2) :
    d = out_dir ∧ incl = [dirname s] ∧ fl = compileFlags platform s := by
  by_cases hne : repo_paths = []
  · subst hne
    rw [build_library_empty] at h
    simp at h
  · cases hg : getmtimes fs (script_path :: (discover fs repo_paths).1) with
    | error e2 =>
      rw [build_library_mtime_error fs platform compileOk script_path out_dir
        output_path repo_paths hne e2 hg] at h
      simp at h
    | ok ts =>
      obtain ⟨hts, hex⟩ := getmtimes_ok_inv fs _ ts hg
      by_cases hfresh : maxList (mtimesD fs (script_path :: (discover fs repo_paths).1))
          ≤ (if fs.existsP output_path then (fs.mtime output_path).getD 0 else 0)
      · rw [build_library_fresh fs platform compileOk script_path out_dir output_path
          repo_paths hne hex hfresh] at h
        simp at h
      · rw [build_library_stale fs platform compileOk script_path out_dir output_path
          repo_paths hne hex hfresh] at h
        rcases buildPass_events platform compileOk out_dir output_path
            (discover fs repo_paths) _ h with ⟨s2, _, he⟩ | ⟨objs, tl, he⟩ | he
        · rw [compileEv] at he
          injection he with h1 h2 h3 h4
          subst h1
          exact ⟨h2, h3, h4⟩
        · cases he
        · cases he

/-- Claim C4: every compiler invocation of a pass gets, as include directories,
exactly the unit's own containing directory; and as extra flags: nothing on the
Windows platform, and on every other platform exactly `-fPIC` followed by
`-std=c11` when the source path ends in `.c` and `-std=c++11` otherwise. -/
theorem C4_unit_flags (fs : FS) (platform : Platform) (compileOk : String → Bool)
    (script_path out_dir output_path : String) (repo_paths : List String)
    (s d : String) (incl : List String) (fl : Option (List String))
    (h : Ev.compile s d incl fl
      ∈ (build_library fs platform compileOk script_path out_dir output_path
          repo_paths).2) :
    incl = [dirname s]
      ∧ (platform = .windows → fl = none)
      ∧ (platform = .other →
          fl = some ["-fPIC", if endswith s ".c" then "-std=c11" else "-std=c++11"]) := by
  obtain ⟨hd, hincl, hfl⟩ := build_library_compile_event fs platform compileOk
    script_path out_dir output_path repo_paths s d incl fl h
  refine ⟨hincl, ?_, ?_⟩
  · rintro rfl
    simpa [compileFlags] using hfl
  · rintro rfl
    rw [hfl, compileFlags]
    split <;> simp_all

theorem C4_unit_flags_witness :
    (["A/src"] : List String) = [dirname "A/src/parser.c"]
      ∧ (Platform.other = Platform.windows →
          (some ["-fPIC", "-std=c11"] : Option (List String)) = none)
      ∧ (Platform.other = Platform.other →
          (some ["-fPIC", "-std=c11"] : Option (List String))
            = some ["-fPIC",
                if endswith "A/src/parser.c" ".c" then "-std=c11" else "-std=c++11"]) :=
  C4_unit_flags fsA .other okAll "build.py" "tmp" "out.so" ["A"] "A/src/parser.c" "tmp"
    ["A/src"] (some ["-fPIC", "-std=c11"]) (by decide)

end BuildPy
namespace BuildPy

/-- Claim C6: when some unit's compilation raises (here: the first source the
oracle fails on, in a pass that got past the staleness check), the pass
terminates fatally: the result is the propagated compile error — not `True` or
`False` — the trace holds compiler invocations only for the units up to and
including the failing one, no link event occurs, and the temporary directory
removal is the last event of that exit path. -/
theorem C6_compile_failure_aborts (fs : FS) (platform : Platform)
    (compileOk : String → Bool) (script_path out_dir output_path : String)
    (repo_paths : List String) (s : String)
    (hne : repo_paths ≠ [])
    (hex : ∀ p ∈ script_path :: (discover fs repo_paths).1, (fs.mtime p).isSome)
    (hstale : ¬ maxList (mtimesD fs (script_path :: (discover fs repo_paths).1))
        ≤ (if fs.existsP output_path then (fs.mtime output_path).getD 0 else 0))
    (hfail : (discover fs repo_paths).1.find? (fun t => !compileOk t) = some s) :
    build_library fs platform compileOk script_path out_dir output_path repo_paths
        = (.error (.compileError s),
           ((discover fs repo_paths).1.takeWhile (fun t => compileOk t) ++ [s]).map
               (compileEv platform out_dir)
             ++ [Ev.tmpRemoved])
      ∧ (∀ e ∈ (build_library fs platform compileOk script_path out_dir output_path
            repo_paths).2, isLinkEv e = false)
      ∧ (build_library fs platform compileOk script_path out_dir output_path
            repo_paths).2.getLast? = some Ev.tmpRemoved := by
  have hb := build_library_stale fs platform compileOk script_path out_dir output_path
    repo_paths hne hex hstale
  have hp := buildPass_fail platform compileOk out_dir output_path
    (discover fs repo_paths) s hfail
  rw [hb, hp]
  refine ⟨rfl, ?_, ?_⟩
  · intro e he
    simp only [List.mem_append, List.mem_singleton, List.mem_map] at he
    rcases he with ⟨t, _, rfl⟩ | rfl
    · rfl
    · rfl
  · exact List.getLast?_concat _

theorem C6_compile_failure_aborts_witness :
    build_library fsC .other (failAt "B/src/parser.c") "build.py" "tmp" "out.so"
        ["A", "B", "C"]
      = (.error (.compileError "B/src/parser.c"),
         [compileEv .other "tmp" "A/src/parser.c", compileEv .other "tmp" "B/src/parser.c",
          Ev.tmpRemoved]) := by
  have h := C6_compile_failure_aborts fsC .other (failAt "B/src/parser.c") "build.py"
    "tmp" "out.so" ["A", "B", "C"] "B/src/parser.c" (by decide) (by decide) (by decide)
    (by decide)
  exact h.1.trans (by decide)

theorem mem_moduleUnits_cases (fs : FS) (r q : String) (h : q ∈ moduleUnits fs r) :
    q = parserPath r ∨ (fs.mtime q).isSome := by
  unfold moduleUnits at h
  rcases List.mem_cons.mp h with rfl | h2
  · exact .inl rfl
  · right
    split at h2
    · rw [List.mem_singleton.mp h2]
      simpa [FS.existsP] using by assumption
    · split at h2
      · rw [List.mem_singleton.mp h2]
        simpa [FS.existsP] using by assumption
      · cases h2

theorem mem_discover_sources (fs : FS) (repo_paths : List String) (q : String)
    (h : q ∈ (discover fs repo_paths).1) :
    ∃ r ∈ repo_paths, q ∈ moduleUnits fs r := by
  rw [discover_spec] at h
  simp only [List.mem_flatten, List.mem_map] at h
  obtain ⟨l, ⟨r, hr, rfl⟩, hq⟩ := h
  exact ⟨r, hr, hq⟩

/-- Claim C7 (amended): when the build script exists but some module root's
mandatory `src/parser.c` does not, `build_library` raises a fatal error before
any compiler invocation and nothing is compiled or linked — but the error is
the `FileNotFoundError` of the modification-time lookup on the missing
mandatory unit, not the `ValueError` configuration error. -/
theorem C7_missing_parser_error (fs : FS) (platform : Platform)
    (compileOk : String → Bool) (script_path out_dir output_path : String)
    (repo_paths : List String)
    (hs : (fs.mtime script_path).isSome)
    (hmiss : ∃ r ∈ repo_paths, fs.mtime (parserPath r) = none) :
    ∃ p, build_library fs platform compileOk script_path out_dir output_path repo_paths
          = (.error (.fileNotFound p), [])
        ∧ (∃ r ∈ repo_paths, p = parserPath r)
        ∧ fs.mtime p = none
        ∧ isConfigurationErrorResult
            (build_library fs platform compileOk script_path out_dir output_path
              repo_paths).1 = false := by
  obtain ⟨r0, hr0, hm0⟩ := hmiss
  have hne : repo_paths ≠ [] := by
    intro he
    rw [he] at hr0
    cases hr0
  have hp0 : parserPath r0 ∈ (discover fs repo_paths).1 := by
    rw [discover_spec]
    exact List.mem_flatten.mpr ⟨moduleUnits fs r0,
      List.mem_map.mpr ⟨r0, hr0, rfl⟩, List.mem_cons_self _ _⟩
  obtain ⟨q, hq, hqn, hge⟩ := getmtimes_error_of_missing fs
    (script_path :: (discover fs repo_paths).1) (parserPath r0)
    (List.mem_cons_of_mem _ hp0) hm0
  have hqs : q ∈ (discover fs repo_paths).1 := by
    rcases List.mem_cons.mp hq with rfl | h2
    · rw [hqn] at hs
      cases hs
    · exact h2
  obtain ⟨r, hr, hqmu⟩ := mem_discover_sources fs repo_paths q hqs
  have hqp : q = parserPath r := by
    rcases mem_moduleUnits_cases fs r q hqmu with h | h
    · exact h
    · rw [hqn] at h
      cases h
  have hb := build_library_mtime_error fs platform compileOk script_path out_dir
    output_path repo_paths hne _ hge
  exact ⟨q, hb, ⟨r, hr, hqp⟩, hqn, by rw [hb]; rfl⟩

theorem C7_missing_parser_error_witness :
    ∃ p, build_library fsMissing .other okAll "build.py" "tmp" "out.so" ["A"]
          = (.error (.fileNotFound p), [])
        ∧ (∃ r ∈ ["A"], p = parserPath r)
        ∧ fsMissing.mtime p = none
        ∧ isConfigurationErrorResult
            (build_library fsMissing .other okAll "build.py" "tmp" "out.so" ["A"]).1
          = false :=
  C7_missing_parser_error fsMissing .other okAll "build.py" "tmp" "out.so" ["A"]
    (by decide) ⟨"A", by decide, by decide⟩

/-- Claim C7 (counterexample): for module root `A` with no `src/parser.c`, the
raised error is concretely the `FileNotFoundError` of the mtime lookup, and it
is not the `ValueError` that realises the configuration error of the claim. -/
theorem C7_counterexample :
    build_library fsMissing .other okAll "build.py" "tmp" "out.so" ["A"]
        = (.error (.fileNotFound "A/src/parser.c"), [])
      ∧ isConfigurationErrorResult
          (build_library fsMissing .other okAll "build.py" "tmp" "out.so" ["A"]).1
        = false := by
  decide

end BuildPy
namespace BuildPy

theorem build_library_ok_true_inv (fs : FS) (platform : Platform)
    (compileOk : String → Bool) (script_path out_dir output_path : String)
    (repo_paths : List String)
    (h : (build_library fs platform compileOk script_path out_dir output_path
        repo_paths).1 = .ok true) :
    repo_paths ≠ []
      ∧ ∀ p ∈ script_path :: (discover fs repo_paths).1, (fs.mtime p).isSome := by
  by_cases hne : repo_paths = []
  · subst hne
    rw [build_library_empty] at h
    simp at h
  · refine ⟨hne, ?_⟩
    cases hg : getmtimes fs (script_path :: (discover fs repo_paths).1) with
    | error e =>
      rw [build_library_mtime_error fs platform compileOk script_path out_dir
        output_path repo_paths hne e hg] at h
      simp at h
    | ok ts => exact (getmtimes_ok_inv fs _ ts hg).2

theorem runBuild_snd_of_ok (fs : FS) (platform : Platform) (compileOk : String → Bool)
    (script_path out_dir output_path : String) (repo_paths : List String) (now : Nat)
    (h : (build_library fs platform compileOk script_path out_dir output_path
        repo_paths).1 = .ok true) :
    (runBuild fs platform compileOk script_path out_dir output_path repo_paths now).2
      = fs.withMtime output_path now := by
  simp only [runBuild]
  rw [h]

theorem FS.mtime_withMtime_ne (fs : FS) (p q : String) (t : Nat) (h : q ≠ p) :
    (fs.withMtime p t).mtime q = fs.mtime q := by
  simp [FS.withMtime, h]

theorem FS.existsP_withMtime_ne (fs : FS) (p q : String) (t : Nat) (h : q ≠ p) :
    (fs.withMtime p t).existsP q = fs.existsP q := by
  simp [FS.existsP, FS.mtime_withMtime_ne fs p q t h]

theorem any_congr {α : Type} (l : List α) (p q : α → Bool)
    (h : ∀ a ∈ l, p a = q a) : l.any p = l.any q := by
  induction l with
  | nil => rfl
  | cons a rest ih =>
    simp only [List.any_cons, h a (List.mem_cons_self _ _),
      ih (fun b hb => h b (List.mem_cons_of_mem _ hb))]

theorem discover_congr (fs1 fs2 : FS) (repo_paths : List String)
    (h : ∀ r ∈ repo_paths,
      fs1.existsP (scannerCCPath r) = fs2.existsP (scannerCCPath r)
        ∧ fs1.existsP (scannerCPath r) = fs2.existsP (scannerCPath r)) :
    discover fs1 repo_paths = discover fs2 repo_paths := by
  rw [discover_spec, discover_spec]
  have hmu : ∀ r ∈ repo_paths, moduleUnits fs1 r = moduleUnits fs2 r := by
    intro r hr
    obtain ⟨hcc, hc⟩ := h r hr
    unfold moduleUnits
    rw [hcc, hc]
  rw [List.map_congr_left hmu]
  congr 1
  apply any_congr
  intro r hr
  unfold moduleHasCpp
  exact (h r hr).1

theorem mem_moduleUnits_paths (fs : FS) (r q : String) (h : q ∈ moduleUnits fs r) :
    q = parserPath r ∨ q = scannerCCPath r ∨ q = scannerCPath r := by
  unfold moduleUnits at h
  rcases List.mem_cons.mp h with rfl | h2
  · exact .inl rfl
  · split at h2
    · exact .inr (.inl (List.mem_singleton.mp h2))
    · split at h2
      · exact .inr (.inr (List.mem_singleton.mp h2))
      · cases h2

/-- Claim C8: idempotence of a completed build.  If `build_library` performed a
full compile and link (returned `True`), and the link wrote the artifact at a
time `now` no earlier than any input's modification time, then running
`build_library` again on the resulting filesystem with the same arguments (the
output path being a genuine artifact path, distinct from the build script and
from every conventional unit path of the modules) returns `False` with an
empty trace: nothing is compiled or linked. -/
theorem C8_idempotent (fs : FS) (platform : Platform) (compileOk : String → Bool)
    (script_path out_dir output_path : String) (repo_paths : List String) (now : Nat)
    (h1 : (build_library fs platform compileOk script_path out_dir output_path
        repo_paths).1 = .ok true)
    (hnow : ∀ p ∈ script_path :: (discover fs repo_paths).1, (fs.mtime p).getD 0 ≤ now)
    (hsep : ∀ r ∈ repo_paths, output_path ≠ parserPath r
        ∧ output_path ≠ scannerCCPath r ∧ output_path ≠ scannerCPath r)
    (hscript : output_path ≠ script_path) :
    build_library
        ((runBuild fs platform compileOk script_path out_dir output_path repo_paths
          now).2)
        platform compileOk script_path out_dir output_path repo_paths
      = (.ok false, []) := by
  obtain ⟨hne, hex⟩ := build_library_ok_true_inv fs platform compileOk script_path
    out_dir output_path repo_paths h1
  rw [runBuild_snd_of_ok fs platform compileOk script_path out_dir output_path
    repo_paths now h1]
  have hdisc : discover (fs.withMtime output_path now) repo_paths
      = discover fs repo_paths := by
    apply discover_congr
    intro r hr
    obtain ⟨_, hcc, hc⟩ := hsep r hr
    exact ⟨FS.existsP_withMtime_ne fs output_path _ now (Ne.symm hcc),
      FS.existsP_withMtime_ne fs output_path _ now (Ne.symm hc)⟩
  have hmt : ∀ p ∈ script_path :: (discover fs repo_paths).1,
      (fs.withMtime output_path now).mtime p = fs.mtime p := by
    intro p hp
    rcases List.mem_cons.mp hp with rfl | hp2
    · exact FS.mtime_withMtime_ne fs output_path p now (Ne.symm hscript)
    · obtain ⟨r, hr, hmu⟩ := mem_discover_sources fs repo_paths p hp2
      obtain ⟨hpar, hcc, hc⟩ := hsep r hr
      rcases mem_moduleUnits_paths fs r p hmu with rfl | rfl | rfl
      · exact FS.mtime_withMtime_ne fs output_path _ now (Ne.symm hpar)
      · exact FS.mtime_withMtime_ne fs output_path _ now (Ne.symm hcc)
      · exact FS.mtime_withMtime_ne fs output_path _ now (Ne.symm hc)
  apply build_library_fresh
  · exact hne
  · rw [hdisc]
    intro p hp
    rw [hmt p hp]
    exact hex p hp
  · rw [hdisc]
    have hout : (fs.withMtime output_path now).existsP output_path = true := by
      simp [FS.existsP, FS.withMtime]
    rw [hout]
    have hmd : mtimesD (fs.withMtime output_path now)
        (script_path :: (discover fs repo_paths).1)
        = mtimesD fs (script_path :: (discover fs repo_paths).1) := by
      unfold mtimesD
      exact List.map_congr_left (fun p hp => by rw [hmt p hp])
    rw [if_pos rfl, hmd]
    have hgd : ((fs.withMtime output_path now).mtime output_path).getD 0 = now := by
      simp [FS.withMtime]
    rw [hgd, maxList_le_iff]
    intro x hx
    obtain ⟨p, hp, rfl⟩ := List.mem_map.mp hx
    exact hnow p hp

theorem C8_idempotent_witness :
    build_library
        ((runBuild fsA .other okAll "build.py" "tmp" "out.so" ["A"] 10).2)
        .other okAll "build.py" "tmp" "out.so" ["A"]
      = (.ok false, []) :=
  C8_idempotent fsA .other okAll "build.py" "tmp" "out.so" ["A"] 10 (by decide)
    (by decide) (by decide) (by decide)

theorem string_pjoin_length (a b : String) :
    (pjoin a b).length = a.length + 1 + b.length := by
  have h : ("/" : String).length = 1 := rfl
  simp [pjoin, String.length_append, h]

theorem scanner_paths_ne (r : String) :
    scannerCPath r ≠ parserPath r ∧ scannerCPath r ≠ scannerCCPath r := by
  have h1 : ("src" : String).length = 3 := rfl
  have h2 : ("parser.c" : String).length = 8 := rfl
  have h3 : ("scanner.c" : String).length = 9 := rfl
  have h4 : ("scanner.cc" : String).length = 10 := rfl
  constructor
  · intro h
    have hl := congrArg String.length h
    simp only [scannerCPath, parserPath, string_pjoin_length, h1, h2, h3] at hl
    omega
  · intro h
    have hl := congrArg String.length h
    simp only [scannerCPath, scannerCCPath, string_pjoin_length, h1, h3, h4] at hl
    omega

/-- Claim C9: a module whose `src` directory holds both `scanner.cc` and
`scanner.c` contributes exactly the two units `parser.c` and `scanner.cc` (in
that order) to discovery — its `scanner.c` is silently ignored — the build's
C++-target flag is set, and no module ever contributes more than two units. -/
theorem C9_both_scanners (fs : FS) (repo_paths : List String) (r : String)
    (hr : r ∈ repo_paths)
    (hcc : fs.existsP (scannerCCPath r) = true)
    (_hc : fs.existsP (scannerCPath r) = true) :
    moduleUnits fs r = [parserPath r, scannerCCPath r]
      ∧ scannerCPath r ∉ moduleUnits fs r
      ∧ (discover fs repo_paths).1 = (repo_paths.map (moduleUnits fs)).flatten
      ∧ (discover fs repo_paths).2 = true
      ∧ ∀ r2 : String, (moduleUnits fs r2).length ≤ 2 := by
  have hmu : moduleUnits fs r = [parserPath r, scannerCCPath r] := by
    simp [moduleUnits, hcc]
  refine ⟨hmu, ?_, ?_, ?_, ?_⟩
  · rw [hmu]
    intro hmem
    rcases List.mem_cons.mp hmem with h | h
    · exact (scanner_paths_ne r).1 h
    · exact (scanner_paths_ne r).2 (List.mem_singleton.mp h)
  · rw [discover_spec]
  · rw [discover_spec]
    exact List.any_eq_true.mpr ⟨r, hr, by simpa [moduleHasCpp] using hcc⟩
  · intro r2
    unfold moduleUnits
    split
    · simp
    · split <;> simp

theorem C9_both_scanners_witness :
    moduleUnits fsB "B" = [parserPath "B", scannerCCPath "B"]
      ∧ scannerCPath "B" ∉ moduleUnits fsB "B"
      ∧ (discover fsB ["B"]).1 = ((["B"] : List String).map (moduleUnits fsB)).flatten
      ∧ (discover fsB ["B"]).2 = true
      ∧ ∀ r2 : String, (moduleUnits fsB r2).length ≤ 2 :=
  C9_both_scanners fsB ["B"] "B" (by decide) (by decide) (by decide)

end BuildPy
